import Mathlib

/-!
Verification of the `FilmEfficientNetEncoder` forward pass
(`robotic_transformer_pytorch/film_efficientnet/pretrained_efficientnet_encoder.py`).

Tensors are modelled shallowly as a shape (list of dimension sizes) together
with a flat row-major data list of rationals.  The external collaborators
(backbone network, preprocessing transform, FiLM conditioning, convolution
weights) are parameters of the encoder record; the orchestration logic of
`forward` is translated statement by statement from the source.
-/

namespace RT1

/-- A tensor: row-major flat data together with its shape. -/
structure Tensor where
  shape : List Nat
  data : List ℚ
deriving DecidableEq, Repr

/-- A tensor is well-formed when its data length matches its shape. -/
def Tensor.wf (t : Tensor) : Prop := t.data.length = t.shape.prod

instance instDecEqExcept {e a : Type} [DecidableEq e] [DecidableEq a] :
    DecidableEq (Except e a) := fun x y =>
  match x, y with
  | .error u, .error v =>
    if h : u = v then isTrue (h ▸ rfl)
    else isFalse (fun hh => h (Except.error.inj hh))
  | .ok u, .ok v =>
    if h : u = v then isTrue (h ▸ rfl)
    else isFalse (fun hh => h (Except.ok.inj hh))
  | .error _, .ok _ => isFalse (fun hh => Except.noConfusion hh)
  | .ok _, .error _ => isFalse (fun hh => Except.noConfusion hh)

/-- Maximum of a list of rationals (0 for the empty list, which the
source never queries: `torch.max` on an empty tensor is an error). -/
def listMax : List ℚ → ℚ
  | [] => 0
  | [x] => x
  | x :: y :: xs => max x (listMax (y :: xs))

/-- Minimum of a list of rationals (0 for the empty list). -/
def listMin : List ℚ → ℚ
  | [] => 0
  | [x] => x
  | x :: y :: xs => min x (listMin (y :: xs))

/-- `torch.max(image)`: global maximum over all elements. -/
def tmax (t : Tensor) : ℚ := listMax t.data

/-- `torch.min(image)`: global minimum over all elements. -/
def tmin (t : Tensor) : ℚ := listMin t.data

/-- `image / c`: elementwise division by a scalar. -/
def divScalar (t : Tensor) (c : ℚ) : Tensor :=
  { shape := t.shape, data := t.data.map (fun x => x / c) }

/-- `tensor.unsqueeze(n)`: insert a singleton dimension at position `n`;
row-major data is unchanged. -/
def unsqueezeAt (n : Nat) (t : Tensor) : Tensor :=
  { shape := t.shape.take n ++ 1 :: t.shape.drop n, data := t.data }

/-- `image.permute(0, 3, 1, 2)` on a rank-4 tensor `(B, H, W, C)`,
producing `(B, C, H, W)` with data re-gathered in row-major order. -/
def permute0312 (t : Tensor) : Tensor :=
  match t.shape with
  | [b, h, w, c] =>
      { shape := [b, c, h, w]
        data :=
          (List.range (b * c * h * w)).map (fun k =>
            let i := k / (c * h * w)
            let l := (k / (h * w)) % c
            let j := (k / w) % h
            let m := k % w
            t.data.getD (((i * h + j) * w + m) * c + l) 0) }
  | _ => t

/-- The layout step of `forward`: `if image.shape[-1] == 3: image =
image.permute(0, 3, 1, 2)`. -/
def maybePermute (t : Tensor) : Tensor :=
  if t.shape.getLast? = some 3 then permute0312 t else t

/-- Error taxonomy of the encoder (construction check and the three
`forward` assertions). -/
inductive Err where
  | config : Err
  | usage : Err
  | shape : Err
  | range : Err
deriving DecidableEq, Repr

/-- The value-range step of `forward`:
`if torch.max(image) >= 1.0: image = image / 255.0` followed by
`assert torch.min(image) >= 0.0 and torch.max(image) <= 1.0`. -/
def rescaleAndCheck (t : Tensor) : Except Err Tensor :=
  let u := if 1 ≤ tmax t then divScalar t 255 else t
  if 0 ≤ tmin u ∧ tmax u ≤ 1 then .ok u else .error .range

/-- The shape/value canonicalization prefix of `forward`: batch-dimension
insertion for rank-3 input, rank-4 assertion, layout permutation, value
rescale and range assertion — producing the tensor handed to `preprocess`. -/
def canonicalize (image : Tensor) : Except Err Tensor :=
  let im1 := if image.shape.length = 3 then unsqueezeAt 0 image else image
  if im1.shape.length = 4 then rescaleAndCheck (maybePermute im1)
  else .error .shape

/-- The encoder state built by `FilmEfficientNetEncoder.__init__`, together
with its external collaborators.  `convIn`/`convOut` record the
`nn.Conv2d(in_channels=1536, out_channels=512, ...)` widths and
`filmChannels` the `FilmConditioning(num_channels=512)` width; the
functional fields model the backbone, preprocessing transform, convolution
weights and FiLM scale/shift, which live outside this file's source. -/
structure Encoder where
  includeTop : Bool
  pooling : Bool
  convIn : Nat
  convOut : Nat
  filmChannels : Nat
  net : Tensor → Option Tensor → Tensor
  preprocess : Tensor → Tensor
  convWeight : Nat → Nat → ℚ
  filmScale : Tensor → Nat → ℚ
  filmShift : Tensor → Nat → ℚ

/-- `FilmEfficientNetEncoder.__init__`: reject unknown variants
(`_MODELS` holds only `"b3"`), then record the fixed channel widths
`conv1x1 = Conv2d(1536, 512, 1x1)` and `FilmConditioning(512)`. -/
def mkEncoder (modelVariant : String) (includeTop pooling : Bool)
    (net : Tensor → Option Tensor → Tensor) (preprocess : Tensor → Tensor)
    (convWeight : Nat → Nat → ℚ) (filmScale filmShift : Tensor → Nat → ℚ) :
    Except Err Encoder :=
  if modelVariant = "b3" then
    .ok { includeTop := includeTop, pooling := pooling,
          convIn := 1536, convOut := 512, filmChannels := 512,
          net := net, preprocess := preprocess, convWeight := convWeight,
          filmScale := filmScale, filmShift := filmShift }
  else .error .config

/-- Modelled from the spec: the 1x1 channel projector (`self.conv1x1`,
defined in torch, not in this file) — a learned linear map over channels
only, applied independently at every spatial location, no bias; it takes a
`(B, Cin, H, W)` map to a `(B, convOut, H, W)` map. -/
def conv1x1 (e : Encoder) (t : Tensor) : Tensor :=
  match t.shape with
  | [b, cin, h, w] =>
      { shape := [b, e.convOut, h, w]
        data :=
          (List.range (b * e.convOut * h * w)).map (fun k =>
            let i := k / (e.convOut * h * w)
            let o := (k / (h * w)) % e.convOut
            let p := (k / w) % h
            let q := k % w
            ((List.range cin).map (fun ci =>
              e.convWeight o ci *
                t.data.getD (((i * cin + ci) * h + p) * w + q) 0)).sum) }
  | _ => t

/-- Modelled from the spec: FiLM conditioning (`self.film_layer`, defined
in `film_conditioning.py`, not in this file) — per-channel scale and shift
derived from the context vector, applied elementwise, shape preserved. -/
def film (e : Encoder) (t : Tensor) (ctx : Tensor) : Tensor :=
  match t.shape with
  | [b, c, h, w] =>
      { shape := [b, c, h, w]
        data :=
          (List.range (b * c * h * w)).map (fun k =>
            let ch := (k / (h * w)) % c
            e.filmScale ctx ch * t.data.getD k 0 + e.filmShift ctx ch) }
  | _ => t

/-- `nn.functional.avg_pool2d(features, (H, W))`: global average pooling
over the whole spatial extent of a `(B, C, H, W)` map, giving `(B, C, 1, 1)`. -/
def avgPool2d (t : Tensor) : Tensor :=
  match t.shape with
  | [b, c, h, w] =>
      { shape := [b, c, 1, 1]
        data :=
          (List.range (b * c)).map (fun i =>
            ((List.range (h * w)).map (fun k =>
              t.data.getD (i * (h * w) + k) 0)).sum / (h * w : ℚ)) }
  | _ => t

/-- `features.flatten(1)`: collapse all dimensions after the first. -/
def flatten1 (t : Tensor) : Tensor :=
  match t.shape with
  | [] => t
  | s :: rest => { shape := [s, rest.prod], data := t.data }

/-- Backbone invocation and feature-map expansion:
`features = self.net(image, context)` followed by
`features = features.unsqueeze(2).unsqueeze(3)`. -/
def features0 (e : Encoder) (img : Tensor) (ctx : Option Tensor) : Tensor :=
  unsqueezeAt 3 (unsqueezeAt 2 (e.net (e.preprocess img) ctx))

/-- The conditional projection/FiLM stage of `forward`:
`if context is not None: features = self.conv1x1(features);
features = self.film_layer(features, context)`. -/
def conditioned (e : Encoder) (img : Tensor) (ctx : Option Tensor) : Tensor :=
  match ctx with
  | some c => film e (conv1x1 e (features0 e img (some c))) c
  | none => features0 e img none

/-- The reduction stage of `forward`: optional global average pooling
(`if self._pooling`) followed by the unconditional `flatten(1)`. -/
def reduced (e : Encoder) (t : Tensor) : Tensor :=
  flatten1 (if e.pooling then avgPool2d t else t)

/-- `FilmEfficientNetEncoder.forward`, orchestrating the stages in source
order: include_top/context assertion, canonicalization, preprocessing +
backbone + feature-map expansion, conditional projection + FiLM, optional
global average pooling, flatten. -/
def forward (e : Encoder) (image : Tensor) (context : Option Tensor) :
    Except Err Tensor :=
  if e.includeTop = true ∧ context.isSome then .error .usage
  else
    match canonicalize image with
    | .error err => .error err
    | .ok img => .ok (reduced e (conditioned e img context))

/-- A concrete stand-in backbone used to instantiate the theorems below:
it returns a rank-2 `(batch, C) = (1, 2)` feature summary, as the backbone
contract requires. -/
def demoNet : Tensor → Option Tensor → Tensor := fun _ _ => ⟨[1, 2], [5, 7]⟩

/-- A concrete stand-in preprocessing transform (identity). -/
def demoPre : Tensor → Tensor := fun t => t

/-- Concrete projector weights for instantiating theorems. -/
def demoWeight : Nat → Nat → ℚ := fun _ _ => 1

/-- Concrete FiLM scale for instantiating theorems. -/
def demoScale : Tensor → Nat → ℚ := fun _ _ => 2

/-- Concrete FiLM shift for instantiating theorems. -/
def demoShift : Tensor → Nat → ℚ := fun _ _ => 3

/-- A concrete encoder built from the stand-in collaborators. -/
def demoEncoder (it pool : Bool) : Encoder :=
  ⟨it, pool, 1536, 512, 512, demoNet, demoPre, demoWeight, demoScale, demoShift⟩

/-- A concrete rank-4, channel-first, already-normalized image. -/
def demoImage : Tensor := ⟨[1, 1, 1, 1], [0]⟩

/-- A concrete rank-2 context vector. -/
def demoCtx : Tensor := ⟨[1, 1], [1]⟩

theorem mem_le_listMax {l : List ℚ} {x : ℚ} (hx : x ∈ l) : x ≤ listMax l := by
  induction l with
  | nil => simp at hx
  | cons a l ih =>
    cases l with
    | nil => simp at hx; simp [listMax, hx]
    | cons b m =>
      rcases List.mem_cons.mp hx with h | h
      · subst h; exact le_max_left _ _
      · exact le_trans (ih h) (le_max_right _ _)

theorem listMax_mem {l : List ℚ} (h : l ≠ []) : listMax l ∈ l := by
  induction l with
  | nil => exact absurd rfl h
  | cons a l ih =>
    cases l with
    | nil => simp [listMax]
    | cons b m =>
      rcases max_choice a (listMax (b :: m)) with hc | hc
      · rw [show listMax (a :: b :: m) = max a (listMax (b :: m)) from rfl, hc]
        exact List.mem_cons_self _ _
      · rw [show listMax (a :: b :: m) = max a (listMax (b :: m)) from rfl, hc]
        exact List.mem_cons_of_mem _ (ih (by simp))

theorem listMin_le_mem {l : List ℚ} {x : ℚ} (hx : x ∈ l) : listMin l ≤ x := by
  induction l with
  | nil => simp at hx
  | cons a l ih =>
    cases l with
    | nil => simp at hx; simp [listMin, hx]
    | cons b m =>
      rcases List.mem_cons.mp hx with h | h
      · subst h; exact min_le_left _ _
      · exact le_trans (min_le_right _ _) (ih h)

theorem listMin_mem {l : List ℚ} (h : l ≠ []) : listMin l ∈ l := by
  induction l with
  | nil => exact absurd rfl h
  | cons a l ih =>
    cases l with
    | nil => simp [listMin]
    | cons b m =>
      rcases min_choice a (listMin (b :: m)) with hc | hc
      · rw [show listMin (a :: b :: m) = min a (listMin (b :: m)) from rfl, hc]
        exact List.mem_cons_self _ _
      · rw [show listMin (a :: b :: m) = min a (listMin (b :: m)) from rfl, hc]
        exact List.mem_cons_of_mem _ (ih (by simp))

theorem map_range_getD (l : List ℚ) :
    (List.range l.length).map (fun i => l.getD i 0) = l := by
  induction l with
  | nil => rfl
  | cons a l ih =>
    rw [List.length_cons, List.range_succ_eq_map, List.map_cons, List.map_map]
    simp only [Function.comp_def, List.getD_cons_succ, List.getD_cons_zero]
    rw [ih]

theorem tensor_shape_eta (t : Tensor) (s : List Nat) (h : t.shape = s) :
    t = ⟨s, t.data⟩ := by
  cases t
  cases h
  rfl

theorem unsqueeze23_rank2 (b c : Nat) (d : List ℚ) :
    unsqueezeAt 3 (unsqueezeAt 2 ⟨[b, c], d⟩) = ⟨[b, c, 1, 1], d⟩ := rfl

theorem flatten1_1x1 (b c : Nat) (d : List ℚ) :
    flatten1 ⟨[b, c, 1, 1], d⟩ = ⟨[b, c], d⟩ := by
  simp [flatten1]

theorem avgPool2d_1x1 (t : Tensor) (b c : Nat) (hs : t.shape = [b, c, 1, 1])
    (hl : t.data.length = b * c) : avgPool2d t = t := by
  obtain ⟨sh, d⟩ := t
  simp only at hs hl
  subst hs
  show Tensor.mk [b, c, 1, 1]
      ((List.range (b * c)).map (fun i =>
        ((List.range (1 * 1)).map (fun k => d.getD (i * (1 * 1) + k) 0)).sum
          / ((1 : Nat) * (1 : Nat) : ℚ))) = Tensor.mk [b, c, 1, 1] d
  congr 1
  have h1 : ∀ i ∈ List.range (b * c),
      ((List.range (1 * 1)).map (fun k => d.getD (i * (1 * 1) + k) 0)).sum
        / ((1 : Nat) * (1 : Nat) : ℚ) = d.getD i 0 := by
    intro i _
    have hr : List.range 1 = [0] := rfl
    simp [hr]
  rw [List.map_congr_left h1, ← hl, map_range_getD]

theorem reduced_1x1 (e : Encoder) (t : Tensor) (b c : Nat)
    (hs : t.shape = [b, c, 1, 1]) (hl : t.data.length = b * c) :
    reduced e t = ⟨[b, c], t.data⟩ := by
  unfold reduced
  cases hp : e.pooling
  · show flatten1 t = ⟨[b, c], t.data⟩
    rw [tensor_shape_eta t [b, c, 1, 1] hs]
    exact flatten1_1x1 b c _
  · show flatten1 (avgPool2d t) = ⟨[b, c], t.data⟩
    rw [avgPool2d_1x1 t b c hs hl, tensor_shape_eta t [b, c, 1, 1] hs]
    exact flatten1_1x1 b c _

theorem conv1x1_reduce (e : Encoder) (b cin h w : Nat) (d : List ℚ) :
    (conv1x1 e ⟨[b, cin, h, w], d⟩).shape = [b, e.convOut, h, w] ∧
    (conv1x1 e ⟨[b, cin, h, w], d⟩).data.length = b * e.convOut * h * w := by
  constructor
  · rfl
  · show (List.map _ (List.range (b * e.convOut * h * w))).length = _
    rw [List.length_map, List.length_range]

theorem film_reduce (e : Encoder) (c0 : Tensor) (b c h w : Nat) (d : List ℚ) :
    (film e ⟨[b, c, h, w], d⟩ c0).shape = [b, c, h, w] ∧
    (film e ⟨[b, c, h, w], d⟩ c0).data.length = b * c * h * w := by
  constructor
  · rfl
  · show (List.map _ (List.range (b * c * h * w))).length = _
    rw [List.length_map, List.length_range]

theorem getLast?_four (a b c d : Nat) : List.getLast? [a, b, c, d] = some d := by
  simp

theorem maybePermute_of_not3 (t : Tensor) (h3 : t.shape.getLast? ≠ some 3) :
    maybePermute t = t := by
  unfold maybePermute
  rw [if_neg h3]

theorem maybePermute_of_last3 (t : Tensor) (h3 : t.shape.getLast? = some 3) :
    maybePermute t = permute0312 t := by
  unfold maybePermute
  rw [if_pos h3]

theorem canonicalize_rank4_noperm (t : Tensor) (b c h w : Nat)
    (hs : t.shape = [b, c, h, w]) (hw3 : w ≠ 3) :
    canonicalize t = rescaleAndCheck t := by
  obtain ⟨sh, d⟩ := t
  simp only at hs
  subst hs
  show rescaleAndCheck (maybePermute ⟨[b, c, h, w], d⟩) =
    rescaleAndCheck ⟨[b, c, h, w], d⟩
  rw [maybePermute_of_not3]
  show List.getLast? [b, c, h, w] ≠ some 3
  rw [getLast?_four]
  simp [hw3]

theorem forward_ok (e : Encoder) (image img : Tensor) (ctx : Option Tensor)
    (hni : ¬ (e.includeTop = true ∧ ctx.isSome = true))
    (hc : canonicalize image = .ok img) :
    forward e image ctx = .ok (reduced e (conditioned e img ctx)) := by
  unfold forward
  rw [if_neg hni, hc]

/-- C1: for every image tensor containing an element ≥ 1, the rescale step
of canonicalization takes the divide-by-255 branch; on success every
element of the result lies in [0, 1] with global maximum ≤ 1, and any
element outside [0, 1] after the division makes the call fail with the
range error; for rank-4 channel-first input this step is exactly what
`canonicalize` performs. -/
theorem claim1 (t : Tensor) (x : ℚ) (hx : x ∈ t.data) (h1 : 1 ≤ x) :
    1 ≤ tmax t ∧
    (∀ u, rescaleAndCheck t = .ok u →
      u.data = t.data.map (fun y => y / 255) ∧
      (∀ y ∈ u.data, 0 ≤ y ∧ y ≤ 1) ∧ tmax u ≤ 1) ∧
    ((∃ y ∈ t.data, y < 0 ∨ 255 < y) → rescaleAndCheck t = .error .range) ∧
    (∀ b c h w, t.shape = [b, c, h, w] → w ≠ 3 →
      canonicalize t = rescaleAndCheck t) := by
  have hmax : 1 ≤ tmax t := le_trans h1 (mem_le_listMax hx)
  refine ⟨hmax, ?_, ?_, ?_⟩
  · intro u hu
    simp only [rescaleAndCheck] at hu
    rw [if_pos hmax] at hu
    by_cases hck : 0 ≤ tmin (divScalar t 255) ∧ tmax (divScalar t 255) ≤ 1
    · rw [if_pos hck] at hu
      injection hu with hu2
      subst hu2
      refine ⟨rfl, ?_, hck.2⟩
      intro y hy
      exact ⟨le_trans hck.1 (listMin_le_mem hy), le_trans (mem_le_listMax hy) hck.2⟩
    · rw [if_neg hck] at hu
      exact Except.noConfusion hu
  · rintro ⟨y, hy, hbad⟩
    have hnot : ¬ (0 ≤ tmin (divScalar t 255) ∧ tmax (divScalar t 255) ≤ 1) := by
      rintro ⟨hlo, hhi⟩
      have hymem : y / 255 ∈ (divScalar t 255).data := List.mem_map_of_mem _ hy
      rcases hbad with hneg | hbig
      · have hyneg : y / 255 < 0 := div_neg_of_neg_of_pos hneg (by norm_num)
        exact absurd (le_trans hlo (listMin_le_mem hymem)) (not_le.mpr hyneg)
      · have hybig : 1 < y / 255 := (one_lt_div (by norm_num)).mpr hbig
        exact absurd (le_trans (mem_le_listMax hymem) hhi) (not_le.mpr hybig)
    simp only [rescaleAndCheck]
    rw [if_pos hmax, if_neg hnot]
  · intro b c h w hs hw3
    exact canonicalize_rank4_noperm t b c h w hs hw3

/-- Witness for C1 at the concrete image `(1, 1, 1, 2)` with data `[0, 2]`
(the element 2 forces the divide-by-255 branch). -/
theorem claim1_witness :
    ((2 : ℚ) ∈ (⟨[1, 1, 1, 2], [0, 2]⟩ : Tensor).data ∧ (1 : ℚ) ≤ 2) ∧
    (1 ≤ tmax ⟨[1, 1, 1, 2], [0, 2]⟩ ∧
      (∀ u, rescaleAndCheck ⟨[1, 1, 1, 2], [0, 2]⟩ = .ok u →
        u.data = (⟨[1, 1, 1, 2], [0, 2]⟩ : Tensor).data.map (fun y => y / 255) ∧
        (∀ y ∈ u.data, 0 ≤ y ∧ y ≤ 1) ∧ tmax u ≤ 1) ∧
      ((∃ y ∈ (⟨[1, 1, 1, 2], [0, 2]⟩ : Tensor).data, y < 0 ∨ 255 < y) →
        rescaleAndCheck ⟨[1, 1, 1, 2], [0, 2]⟩ = .error .range) ∧
      (∀ b c h w, (⟨[1, 1, 1, 2], [0, 2]⟩ : Tensor).shape = [b, c, h, w] → w ≠ 3 →
        canonicalize ⟨[1, 1, 1, 2], [0, 2]⟩ = rescaleAndCheck ⟨[1, 1, 1, 2], [0, 2]⟩)) :=
  ⟨⟨by decide, by decide⟩, claim1 ⟨[1, 1, 1, 2], [0, 2]⟩ 2 (by decide) (by decide)⟩

/-- C2 counterexample: the image `(1, 1, 1, 1)` with the single value 1 has
all values inside [0, 1], yet canonicalization does NOT skip the rescale:
the source condition `torch.max(image) >= 1.0` fires at exactly 1.0, the
tensor is divided by 255 and reaches preprocessing changed. -/
theorem claim2_counterexample :
    ((0 : ℚ) ≤ 1 ∧ (1 : ℚ) ≤ 1) ∧
    canonicalize ⟨[1, 1, 1, 1], [1]⟩ = .ok (divScalar ⟨[1, 1, 1, 1], [1]⟩ 255) ∧
    divScalar ⟨[1, 1, 1, 1], [1]⟩ 255 ≠ ⟨[1, 1, 1, 1], [1]⟩ := by
  refine ⟨⟨by norm_num, le_refl 1⟩, ?_, ?_⟩
  · show rescaleAndCheck ⟨[1, 1, 1, 1], [1]⟩ = .ok (divScalar ⟨[1, 1, 1, 1], [1]⟩ 255)
    have hcond : 0 ≤ tmin (divScalar ⟨[1, 1, 1, 1], [1]⟩ 255) ∧
        tmax (divScalar ⟨[1, 1, 1, 1], [1]⟩ 255) ≤ 1 := by
      constructor
      · norm_num [tmin, listMin, divScalar]
      · norm_num [tmax, listMax, divScalar]
    have h1max : (1 : ℚ) ≤ tmax ⟨[1, 1, 1, 1], [1]⟩ := by norm_num [tmax, listMax]
    simp only [rescaleAndCheck]
    rw [if_pos h1max, if_pos hcond]
  · intro h
    have hd := congrArg Tensor.data h
    simp only [divScalar, List.map_cons, List.map_nil] at hd
    have h1 : (1 : ℚ) / 255 = 1 := List.head_eq_of_cons_eq hd
    norm_num at h1

/-- C2 amended: for every nonempty image tensor whose values all lie in
[0, 1) — strictly below 1, since the source branches on `max >= 1.0` —
the divide-by-255 step is skipped and the tensor reaching preprocessing
is unchanged. -/
theorem claim2_amended (t : Tensor) (hne : t.data ≠ [])
    (hin : ∀ x ∈ t.data, 0 ≤ x ∧ x < 1) :
    rescaleAndCheck t = .ok t ∧
    (∀ b c h w, t.shape = [b, c, h, w] → w ≠ 3 → canonicalize t = .ok t) := by
  have hmax : tmax t < 1 := (hin _ (listMax_mem hne)).2
  have hmin : 0 ≤ tmin t := (hin _ (listMin_mem hne)).1
  have hok : rescaleAndCheck t = .ok t := by
    simp only [rescaleAndCheck]
    rw [if_neg (not_le.mpr hmax), if_pos ⟨hmin, le_of_lt hmax⟩]
  refine ⟨hok, fun b c h w hs hw3 => ?_⟩
  rw [canonicalize_rank4_noperm t b c h w hs hw3]
  exact hok

/-- Witness for the amended C2 at the concrete image `(1, 1, 1, 1)` with
data `[0]`. -/
theorem claim2_witness :
    ((⟨[1, 1, 1, 1], [0]⟩ : Tensor).data ≠ [] ∧
      (∀ x ∈ (⟨[1, 1, 1, 1], [0]⟩ : Tensor).data, 0 ≤ x ∧ x < 1)) ∧
    (rescaleAndCheck ⟨[1, 1, 1, 1], [0]⟩ = .ok ⟨[1, 1, 1, 1], [0]⟩ ∧
      (∀ b c h w, (⟨[1, 1, 1, 1], [0]⟩ : Tensor).shape = [b, c, h, w] → w ≠ 3 →
        canonicalize ⟨[1, 1, 1, 1], [0]⟩ = .ok ⟨[1, 1, 1, 1], [0]⟩)) :=
  ⟨⟨by decide, by decide⟩, claim2_amended ⟨[1, 1, 1, 1], [0]⟩ (by decide) (by decide)⟩

/-- C3 counterexample: the constructed encoder's projector has INPUT
channel width 1536 (`nn.Conv2d(in_channels=1536, ...)`), not the fixed
target width 512 claimed. -/
theorem claim3_counterexample :
    (mkEncoder "b3" false false demoNet demoPre demoWeight demoScale demoShift).map
      (fun e => e.convIn) = .ok 1536 ∧ (1536 : Nat) ≠ 512 :=
  ⟨rfl, by decide⟩

/-- C3 amended: at construction the projector has input channel width 1536
(the backbone's native width) and OUTPUT channel width equal to the fixed
target width 512, and the conditioner has channel width 512; these are
construction-time constants of the instance. -/
theorem claim3_amended (variant : String) (it pool : Bool)
    (net : Tensor → Option Tensor → Tensor) (pp : Tensor → Tensor)
    (w : Nat → Nat → ℚ) (fs fsh : Tensor → Nat → ℚ) (e : Encoder)
    (h : mkEncoder variant it pool net pp w fs fsh = .ok e) :
    e.convIn = 1536 ∧ e.convOut = 512 ∧ e.filmChannels = 512 := by
  unfold mkEncoder at h
  by_cases hv : variant = "b3"
  · rw [if_pos hv] at h
    injection h with h2
    subst h2
    exact ⟨rfl, rfl, rfl⟩
  · rw [if_neg hv] at h
    exact Except.noConfusion h

/-- Witness for the amended C3 at a concrete construction. -/
theorem claim3_witness :
    mkEncoder "b3" false false demoNet demoPre demoWeight demoScale demoShift =
      .ok (demoEncoder false false) ∧
    (demoEncoder false false).convIn = 1536 ∧
    (demoEncoder false false).convOut = 512 ∧
    (demoEncoder false false).filmChannels = 512 :=
  ⟨rfl, claim3_amended "b3" false false demoNet demoPre demoWeight demoScale demoShift
    (demoEncoder false false) rfl⟩

/-- C4: when the context argument is absent, the forward call returns the
backbone output reshaped to a degenerate feature map and flattened, with no
modification — the statement mentions neither the projector nor the
conditioner, so the result is independent of their weights — and the output
width is the backbone native channel width `C`. -/
theorem claim4 (e : Encoder) (image img : Tensor) (b C : Nat)
    (hc : canonicalize image = .ok img)
    (hs : (e.net (e.preprocess img) none).shape = [b, C])
    (hl : (e.net (e.preprocess img) none).data.length = b * C) :
    forward e image none = .ok ⟨[b, C], (e.net (e.preprocess img) none).data⟩ := by
  rw [forward_ok e image img none (by simp) hc]
  have hcond : conditioned e img none =
      ⟨[b, C, 1, 1], (e.net (e.preprocess img) none).data⟩ := by
    show unsqueezeAt 3 (unsqueezeAt 2 (e.net (e.preprocess img) none)) = _
    conv_lhs => rw [tensor_shape_eta (e.net (e.preprocess img) none) [b, C] hs]
    exact unsqueeze23_rank2 b C _
  rw [hcond, reduced_1x1 e ⟨[b, C, 1, 1], (e.net (e.preprocess img) none).data⟩ b C rfl hl]

/-- C5: an encoder constructed with `pooling = true` returns exactly the
same value as the otherwise identical encoder constructed with
`pooling = false` (the feature map is always 1x1, so global average pooling
is the identity), and the output width is 512 when a context is supplied
and the backbone native width `C` otherwise. -/
theorem claim5 (it : Bool) (net : Tensor → Option Tensor → Tensor)
    (pp : Tensor → Tensor) (w : Nat → Nat → ℚ) (fs fsh : Tensor → Nat → ℚ)
    (eT eF : Encoder) (image img : Tensor) (ctx : Option Tensor) (b C : Nat)
    (hT : mkEncoder "b3" it true net pp w fs fsh = .ok eT)
    (hF : mkEncoder "b3" it false net pp w fs fsh = .ok eF)
    (hic : ¬ (it = true ∧ ctx.isSome = true))
    (hc : canonicalize image = .ok img)
    (hs : (net (pp img) ctx).shape = [b, C])
    (hl : (net (pp img) ctx).data.length = b * C) :
    forward eT image ctx = forward eF image ctx ∧
    (∃ v, forward eT image ctx = .ok v ∧
      v.shape = [b, if ctx.isSome = true then 512 else C]) := by
  have hb3 : ("b3" : String) = "b3" := rfl
  unfold mkEncoder at hT hF
  rw [if_pos hb3] at hT
  rw [if_pos hb3] at hF
  injection hT with hT2
  injection hF with hF2
  subst hT2
  subst hF2
  rw [forward_ok _ image img ctx hic hc, forward_ok _ image img ctx hic hc]
  cases ctx with
  | none =>
    have hcondT : conditioned
        (⟨it, true, 1536, 512, 512, net, pp, w, fs, fsh⟩ : Encoder) img none =
        ⟨[b, C, 1, 1], (net (pp img) none).data⟩ := by
      show unsqueezeAt 3 (unsqueezeAt 2 (net (pp img) none)) = _
      conv_lhs => rw [tensor_shape_eta (net (pp img) none) [b, C] hs]
      exact unsqueeze23_rank2 b C _
    have hcondF : conditioned
        (⟨it, false, 1536, 512, 512, net, pp, w, fs, fsh⟩ : Encoder) img none =
        ⟨[b, C, 1, 1], (net (pp img) none).data⟩ := hcondT
    rw [hcondT, hcondF,
      reduced_1x1 ⟨it, true, 1536, 512, 512, net, pp, w, fs, fsh⟩
        ⟨[b, C, 1, 1], (net (pp img) none).data⟩ b C rfl hl,
      reduced_1x1 ⟨it, false, 1536, 512, 512, net, pp, w, fs, fsh⟩
        ⟨[b, C, 1, 1], (net (pp img) none).data⟩ b C rfl hl]
    exact ⟨rfl, ⟨_, rfl, by simp⟩⟩
  | some c =>
    have hfeat : features0
        (⟨it, true, 1536, 512, 512, net, pp, w, fs, fsh⟩ : Encoder) img (some c) =
        ⟨[b, C, 1, 1], (net (pp img) (some c)).data⟩ := by
      show unsqueezeAt 3 (unsqueezeAt 2 (net (pp img) (some c))) = _
      conv_lhs => rw [tensor_shape_eta (net (pp img) (some c)) [b, C] hs]
      exact unsqueeze23_rank2 b C _
    have hfeatF : features0
        (⟨it, false, 1536, 512, 512, net, pp, w, fs, fsh⟩ : Encoder) img (some c) =
        ⟨[b, C, 1, 1], (net (pp img) (some c)).data⟩ := hfeat
    obtain ⟨hcs, hcl⟩ := conv1x1_reduce
      (⟨it, true, 1536, 512, 512, net, pp, w, fs, fsh⟩ : Encoder) b C 1 1
      ((net (pp img) (some c)).data)
    have hYeta : conv1x1 (⟨it, true, 1536, 512, 512, net, pp, w, fs, fsh⟩ : Encoder)
        ⟨[b, C, 1, 1], (net (pp img) (some c)).data⟩ =
        ⟨[b, 512, 1, 1], (conv1x1 (⟨it, true, 1536, 512, 512, net, pp, w, fs, fsh⟩ : Encoder)
          ⟨[b, C, 1, 1], (net (pp img) (some c)).data⟩).data⟩ :=
      tensor_shape_eta _ [b, 512, 1, 1] hcs
    have hYY : conv1x1 (⟨it, false, 1536, 512, 512, net, pp, w, fs, fsh⟩ : Encoder)
        ⟨[b, C, 1, 1], (net (pp img) (some c)).data⟩ =
        conv1x1 (⟨it, true, 1536, 512, 512, net, pp, w, fs, fsh⟩ : Encoder)
        ⟨[b, C, 1, 1], (net (pp img) (some c)).data⟩ := rfl
    obtain ⟨hfs2, hfl2⟩ := film_reduce
      (⟨it, true, 1536, 512, 512, net, pp, w, fs, fsh⟩ : Encoder) c b 512 1 1
      ((conv1x1 (⟨it, true, 1536, 512, 512, net, pp, w, fs, fsh⟩ : Encoder)
        ⟨[b, C, 1, 1], (net (pp img) (some c)).data⟩).data)
    have hcondT : conditioned
        (⟨it, true, 1536, 512, 512, net, pp, w, fs, fsh⟩ : Encoder) img (some c) =
        film (⟨it, true, 1536, 512, 512, net, pp, w, fs, fsh⟩ : Encoder)
          ⟨[b, 512, 1, 1], (conv1x1 (⟨it, true, 1536, 512, 512, net, pp, w, fs, fsh⟩ : Encoder)
            ⟨[b, C, 1, 1], (net (pp img) (some c)).data⟩).data⟩ c := by
      show film (⟨it, true, 1536, 512, 512, net, pp, w, fs, fsh⟩ : Encoder)
        (conv1x1 (⟨it, true, 1536, 512, 512, net, pp, w, fs, fsh⟩ : Encoder)
          (features0 (⟨it, true, 1536, 512, 512, net, pp, w, fs, fsh⟩ : Encoder)
            img (some c))) c = _
      conv_lhs => rw [hfeat, hYeta]
    have hcondF : conditioned
        (⟨it, false, 1536, 512, 512, net, pp, w, fs, fsh⟩ : Encoder) img (some c) =
        film (⟨it, true, 1536, 512, 512, net, pp, w, fs, fsh⟩ : Encoder)
          ⟨[b, 512, 1, 1], (conv1x1 (⟨it, true, 1536, 512, 512, net, pp, w, fs, fsh⟩ : Encoder)
            ⟨[b, C, 1, 1], (net (pp img) (some c)).data⟩).data⟩ c := by
      show film (⟨it, false, 1536, 512, 512, net, pp, w, fs, fsh⟩ : Encoder)
        (conv1x1 (⟨it, false, 1536, 512, 512, net, pp, w, fs, fsh⟩ : Encoder)
          (features0 (⟨it, false, 1536, 512, 512, net, pp, w, fs, fsh⟩ : Encoder)
            img (some c))) c = _
      conv_lhs => rw [hfeatF, hYY, hYeta]
      rfl
    have hDl : (film (⟨it, true, 1536, 512, 512, net, pp, w, fs, fsh⟩ : Encoder)
        ⟨[b, 512, 1, 1], (conv1x1 (⟨it, true, 1536, 512, 512, net, pp, w, fs, fsh⟩ : Encoder)
          ⟨[b, C, 1, 1], (net (pp img) (some c)).data⟩).data⟩ c).data.length = b * 512 := by
      rw [hfl2]
      simp
    rw [hcondT, hcondF,
      reduced_1x1 ⟨it, true, 1536, 512, 512, net, pp, w, fs, fsh⟩ _ b 512 hfs2 hDl,
      reduced_1x1 ⟨it, false, 1536, 512, 512, net, pp, w, fs, fsh⟩ _ b 512 hfs2 hDl]
    exact ⟨rfl, ⟨_, rfl, by simp⟩⟩


/-- Witness for C4 at a concrete encoder (with pooling enabled) and image. -/
theorem claim4_witness :
    (canonicalize demoImage = .ok demoImage ∧
      ((demoEncoder false true).net ((demoEncoder false true).preprocess demoImage)
        none).shape = [1, 2] ∧
      ((demoEncoder false true).net ((demoEncoder false true).preprocess demoImage)
        none).data.length = 1 * 2) ∧
    forward (demoEncoder false true) demoImage none =
      .ok ⟨[1, 2], ((demoEncoder false true).net
        ((demoEncoder false true).preprocess demoImage) none).data⟩ :=
  ⟨⟨by decide, rfl, rfl⟩,
    claim4 (demoEncoder false true) demoImage demoImage 1 2 (by decide) rfl rfl⟩

/-- Witness for C5 at a concrete pair of encoders, image and context. -/
theorem claim5_witness :
    (mkEncoder "b3" false true demoNet demoPre demoWeight demoScale demoShift =
        .ok (demoEncoder false true) ∧
      mkEncoder "b3" false false demoNet demoPre demoWeight demoScale demoShift =
        .ok (demoEncoder false false) ∧
      ¬ (false = true ∧ (some demoCtx).isSome = true) ∧
      canonicalize demoImage = .ok demoImage ∧
      (demoNet (demoPre demoImage) (some demoCtx)).shape = [1, 2] ∧
      (demoNet (demoPre demoImage) (some demoCtx)).data.length = 1 * 2) ∧
    (forward (demoEncoder false true) demoImage (some demoCtx) =
      forward (demoEncoder false false) demoImage (some demoCtx) ∧
    (∃ v, forward (demoEncoder false true) demoImage (some demoCtx) = .ok v ∧
      v.shape = [1, if (some demoCtx).isSome = true then 512 else 2])) :=
  ⟨⟨rfl, rfl, by decide, by decide, rfl, rfl⟩,
    claim5 false demoNet demoPre demoWeight demoScale demoShift
      (demoEncoder false true) (demoEncoder false false) demoImage demoImage
      (some demoCtx) 1 2 rfl rfl (by decide) (by decide) rfl rfl⟩

/-- C6: for every input image — even one that would fail the later shape or
range checks — and every non-absent context, a forward call on an encoder
with `include_top = true` fails with the usage error: the mutual-exclusion
check runs first. -/
theorem claim6 (e : Encoder) (image ctx0 : Tensor) (hit : e.includeTop = true) :
    forward e image (some ctx0) = .error .usage := by
  unfold forward
  rw [if_pos ⟨hit, rfl⟩]

/-- Witness for C6 at an image that is invalid for every later stage
(rank 1, values out of range), showing the usage check fires first. -/
theorem claim6_witness :
    (demoEncoder true false).includeTop = true ∧
    forward (demoEncoder true false) ⟨[2], [300, 300]⟩ (some demoCtx) =
      .error .usage :=
  ⟨rfl, claim6 (demoEncoder true false) ⟨[2], [300, 300]⟩ demoCtx rfl⟩

/-- C7: for a rank-4 image whose trailing dimension is not 3 the layout
step performs no permutation, and for one whose trailing dimension equals 3
the axes are permuted moving channels to position 1. -/
theorem claim7 (t : Tensor) (ht : t.shape.length = 4) :
    (t.shape.getLast? ≠ some 3 → maybePermute t = t) ∧
    (∀ b h w, t.shape = [b, h, w, 3] →
      maybePermute t = permute0312 t ∧ (maybePermute t).shape = [b, 3, h, w]) := by
  refine ⟨maybePermute_of_not3 t, ?_⟩
  intro b h w hsh
  have h3 : t.shape.getLast? = some 3 := by rw [hsh]; exact getLast?_four b h w 3
  refine ⟨maybePermute_of_last3 t h3, ?_⟩
  rw [maybePermute_of_last3 t h3]
  obtain ⟨s0, d0⟩ := t
  simp only at hsh
  subst hsh
  rfl

/-- Witness for C7 at the concrete shape `(1, 2, 2, 3)`. -/
theorem claim7_witness :
    (⟨[1, 2, 2, 3], [0, 1, 2, 3, 4, 5, 6, 7, 8, 9, 10, 11]⟩ : Tensor).shape.length = 4 ∧
    (((⟨[1, 2, 2, 3], [0, 1, 2, 3, 4, 5, 6, 7, 8, 9, 10, 11]⟩ : Tensor).shape.getLast? ≠ some 3 →
      maybePermute ⟨[1, 2, 2, 3], [0, 1, 2, 3, 4, 5, 6, 7, 8, 9, 10, 11]⟩ =
        ⟨[1, 2, 2, 3], [0, 1, 2, 3, 4, 5, 6, 7, 8, 9, 10, 11]⟩) ∧
    (∀ b h w, (⟨[1, 2, 2, 3], [0, 1, 2, 3, 4, 5, 6, 7, 8, 9, 10, 11]⟩ : Tensor).shape = [b, h, w, 3] →
      maybePermute ⟨[1, 2, 2, 3], [0, 1, 2, 3, 4, 5, 6, 7, 8, 9, 10, 11]⟩ =
        permute0312 ⟨[1, 2, 2, 3], [0, 1, 2, 3, 4, 5, 6, 7, 8, 9, 10, 11]⟩ ∧
      (maybePermute ⟨[1, 2, 2, 3], [0, 1, 2, 3, 4, 5, 6, 7, 8, 9, 10, 11]⟩).shape = [b, 3, h, w])) :=
  ⟨by decide, claim7 ⟨[1, 2, 2, 3], [0, 1, 2, 3, 4, 5, 6, 7, 8, 9, 10, 11]⟩ (by decide)⟩

/-- C8: a forward call on a rank-3 image returns exactly the same result as
on the same image pre-expanded to rank 4 with a leading batch dimension of
size 1. -/
theorem claim8 (e : Encoder) (image : Tensor) (ctx : Option Tensor)
    (h3 : image.shape.length = 3) :
    forward e image ctx = forward e (unsqueezeAt 0 image) ctx := by
  have hlen : (unsqueezeAt 0 image).shape.length = 4 := by
    simp [unsqueezeAt, h3]
  have hne3 : ¬ (unsqueezeAt 0 image).shape.length = 3 := by
    rw [hlen]; decide
  have hcan : canonicalize image = canonicalize (unsqueezeAt 0 image) := by
    unfold canonicalize
    rw [if_pos h3, if_neg hne3]
  unfold forward
  rw [hcan]

/-- Witness for C8 at a concrete rank-3 image. -/
theorem claim8_witness :
    (⟨[1, 1, 1], [0]⟩ : Tensor).shape.length = 3 ∧
    forward (demoEncoder false false) ⟨[1, 1, 1], [0]⟩ none =
      forward (demoEncoder false false) (unsqueezeAt 0 ⟨[1, 1, 1], [0]⟩) none :=
  ⟨by decide, claim8 (demoEncoder false false) ⟨[1, 1, 1], [0]⟩ none (by decide)⟩

/-- C9: an image whose rank is neither 3 nor 4 is rejected by
canonicalization with the shape error, and the forward call (when it
reaches canonicalization, i.e. passes the include_top/context check that
the source evaluates first) fails with that error. -/
theorem claim9 (e : Encoder) (image : Tensor) (ctx : Option Tensor)
    (h3 : image.shape.length ≠ 3) (h4 : image.shape.length ≠ 4) :
    canonicalize image = .error .shape ∧
    (¬ (e.includeTop = true ∧ ctx.isSome = true) →
      forward e image ctx = .error .shape) := by
  have hcan : canonicalize image = .error .shape := by
    unfold canonicalize
    rw [if_neg h3, if_neg h4]
  refine ⟨hcan, fun hni => ?_⟩
  unfold forward
  rw [if_neg hni, hcan]

/-- Witness for C9 at a concrete rank-2 image. -/
theorem claim9_witness :
    ((⟨[2, 2], [0, 0, 0, 0]⟩ : Tensor).shape.length ≠ 3 ∧
      (⟨[2, 2], [0, 0, 0, 0]⟩ : Tensor).shape.length ≠ 4) ∧
    (canonicalize ⟨[2, 2], [0, 0, 0, 0]⟩ = .error .shape ∧
      (¬ ((demoEncoder false false).includeTop = true ∧ (none : Option Tensor).isSome = true) →
        forward (demoEncoder false false) ⟨[2, 2], [0, 0, 0, 0]⟩ none = .error .shape)) :=
  ⟨⟨by decide, by decide⟩,
    claim9 (demoEncoder false false) ⟨[2, 2], [0, 0, 0, 0]⟩ none (by decide) (by decide)⟩

/-- C10: the channel-moving permutation fires whenever the trailing
dimension equals 3, in particular when dimension 1 also equals 3 — an
already channel-first image with width exactly 3 is permuted anyway; the
decision inspects only the last axis. -/
theorem claim10 (t : Tensor) (b h : Nat) (hsh : t.shape = [b, 3, h, 3]) :
    maybePermute t = permute0312 t ∧ (maybePermute t).shape = [b, 3, 3, h] := by
  have h3 : t.shape.getLast? = some 3 := by rw [hsh]; exact getLast?_four b 3 h 3
  refine ⟨maybePermute_of_last3 t h3, ?_⟩
  rw [maybePermute_of_last3 t h3]
  obtain ⟨s0, d0⟩ := t
  simp only at hsh
  subst hsh
  rfl

/-- Witness for C10 at the concrete shape `(1, 3, 1, 3)`; the extra
conjunct shows the data is really rearranged. -/
theorem claim10_witness :
    (⟨[1, 3, 1, 3], [0, 1, 2, 3, 4, 5, 6, 7, 8]⟩ : Tensor).shape = [1, 3, 1, 3] ∧
    (maybePermute ⟨[1, 3, 1, 3], [0, 1, 2, 3, 4, 5, 6, 7, 8]⟩ =
        permute0312 ⟨[1, 3, 1, 3], [0, 1, 2, 3, 4, 5, 6, 7, 8]⟩ ∧
      (maybePermute ⟨[1, 3, 1, 3], [0, 1, 2, 3, 4, 5, 6, 7, 8]⟩).shape = [1, 3, 3, 1]) ∧
    maybePermute ⟨[1, 3, 1, 3], [0, 1, 2, 3, 4, 5, 6, 7, 8]⟩ ≠
      ⟨[1, 3, 1, 3], [0, 1, 2, 3, 4, 5, 6, 7, 8]⟩ :=
  ⟨by decide, claim10 ⟨[1, 3, 1, 3], [0, 1, 2, 3, 4, 5, 6, 7, 8]⟩ 1 1 (by decide), by decide⟩

end RT1
